import Mathlib

/-!
Verification of the traffic-signal controller in `tapi.py` (AI-Gajendra/traffic-backend).

The development shallowly embeds the parts of the source the claims are about:
the timing allocator `calculate_timings`, the signal-driver helpers
`set_lights` / `all_red_except`, the three background cycle programs
(`automatic_mode_cycle`, `manual_traffic_cycle`, `yellow_light_cycle`) viewed
as the sequences of GPIO writes they issue, the density sampler wrapper
`run_car_script`, and the mode controller (`stop_current_task`, `set_mode`).
Lane identifiers are the naturals 81-84 where only the identifier matters
(the source uses the strings '81'..'84'; comparison order agrees), and a
four-constructor `Lane` type where the fixed lane set matters.
Python dicts are embedded as association lists in insertion order, with
key-overwrite-preserving-position update, which is exactly CPython's dict
semantics for `d[k] = v`.
-/

namespace Traffic

/-! ## Definitions -/

/-! ### Timing allocator (`calculate_timings`, tapi.py lines 131-144) -/

/-- Insertion of `x` into a list already sorted by descending count
(second component), placing `x` after every element whose count is `≥ x.2`.
Together with `sortedDesc` this is an extensionally faithful model of
Python's `sorted(items, key=lambda x: x[1], reverse=True)`: a stable sort by
descending second component (Python's `reverse=True` keeps the original
relative order of elements with equal keys). -/
def insertDesc (x : Nat × Nat) : List (Nat × Nat) → List (Nat × Nat)
  | [] => [x]
  | y :: ys => if x.2 ≤ y.2 then y :: insertDesc x ys else x :: y :: ys

/-- Stable descending sort by count: model of
`sorted(vehicle_counts.items(), key=lambda x: x[1], reverse=True)`
(tapi.py line 133). -/
def sortedDesc (l : List (Nat × Nat)) : List (Nat × Nat) :=
  l.foldl (fun acc x => insertDesc x acc) []

/-- CPython dict assignment `d[k] = v` on a dict in insertion order: if the
key is present its value is replaced in place, otherwise the pair is appended. -/
def dictInsert (k : Nat) (v : Nat) : List (Nat × Nat) → List (Nat × Nat)
  | [] => [(k, v)]
  | (k₁, v₁) :: t => if k₁ = k then (k, v) :: t else (k₁, v₁) :: dictInsert k v t

/-- Dict lookup `d[k]` / `d.get(k)`. -/
def dictLookup (k : Nat) : List (Nat × Nat) → Option Nat
  | [] => none
  | (k₁, v₁) :: t => if k₁ = k then some v₁ else dictLookup k t

/-- `total_vehicles = sum(max(c, 1) for _, c in sorted_lanes) or 1`
(tapi.py line 135).  Python's `x or 1` yields `1` exactly when `x == 0`. -/
def total_vehicles (sorted_lanes : List (Nat × Nat)) : Nat :=
  let s := (sorted_lanes.map (fun p => max p.2 1)).sum
  if s = 0 then 1 else s

/-- `total_green_time = 140` (tapi.py line 136). -/
def total_green_time : Nat := 140

/-- One step of the loop at tapi.py lines 139-143:
`weight = max(count, 1) / total_vehicles`,
`green_time = int(weight * total_green_time)`,
`green_time = max(10, min(green_time, 80))`,
`lane_timings[lane_id] = green_time`.
The float expression `int(max(count,1)/total * 140)` is modelled by the exact
floor `max(count,1) * 140 / total`; for the quantities involved here the
IEEE-double computation and the exact floor agree. -/
def timing_step (total : Nat) (lt : List (Nat × Nat)) (p : Nat × Nat) :
    List (Nat × Nat) :=
  let green_time := max p.2 1 * total_green_time / total
  let green_time := max 10 (min green_time 80)
  dictInsert p.1 green_time lt

/-- `calculate_timings` (tapi.py lines 131-144): sorts the vehicle-count dict
by descending count, computes the clamped proportional green time per lane,
and returns the sorted pairs together with the `lane_timings` dict. -/
def calculate_timings (vehicle_counts : List (Nat × Nat)) :
    List (Nat × Nat) × List (Nat × Nat) :=
  let sorted_lanes := sortedDesc vehicle_counts
  let total := total_vehicles sorted_lanes
  let lane_timings := sorted_lanes.foldl (timing_step total) []
  (sorted_lanes, lane_timings)

/-- The ordering the spec demands of the allocator's output: `p` is listed
before `q` when `p` has the larger count, or the counts tie and `p` has the
smaller lane identifier. -/
def rankedBefore (p q : Nat × Nat) : Prop :=
  q.2 < p.2 ∨ (p.2 = q.2 ∧ p.1 < q.1)

instance : DecidableRel rankedBefore := fun p q => by
  unfold rankedBefore; infer_instance

/-! ### Signal driver and lights state (`set_lights` / `all_red_except`) -/

/-- The four lanes of `LANE_GPIO` (tapi.py lines 17-22). -/
inductive Lane where
  | l81
  | l82
  | l83
  | l84
  deriving DecidableEq, Fintype

/-- The iteration order of the `LANE_GPIO` dict: 81, 82, 83, 84. -/
def lanesOrder : List Lane := [.l81, .l82, .l83, .l84]

/-- The red/yellow/green output levels of one lane. -/
structure Sig where
  r : Bool
  y : Bool
  g : Bool
  deriving DecidableEq

/-- The outputs of all four lanes. -/
structure LightsState where
  a81 : Sig
  a82 : Sig
  a83 : Sig
  a84 : Sig
  deriving DecidableEq

/-- The outputs of one lane. -/
def getSig (s : LightsState) : Lane → Sig
  | .l81 => s.a81
  | .l82 => s.a82
  | .l83 => s.a83
  | .l84 => s.a84

/-- One call to `set_lights(lane_id, red, yellow, green)` (tapi.py 86-91),
as data: which lane and which three output levels it drives. -/
structure Write where
  lane : Lane
  r : Bool
  y : Bool
  g : Bool
  deriving DecidableEq

/-- The effect of `set_lights` (tapi.py 86-91) on the lights state: the three
outputs of `w.lane` are driven to `w.r`, `w.y`, `w.g`; other lanes are
untouched. -/
def set_lights (w : Write) (s : LightsState) : LightsState :=
  match w.lane with
  | .l81 => { s with a81 := ⟨w.r, w.y, w.g⟩ }
  | .l82 => { s with a82 := ⟨w.r, w.y, w.g⟩ }
  | .l83 => { s with a83 := ⟨w.r, w.y, w.g⟩ }
  | .l84 => { s with a84 := ⟨w.r, w.y, w.g⟩ }

/-- Applying a sequence of GPIO writes in order. -/
def applyWrites (ws : List Write) (s : LightsState) : LightsState :=
  ws.foldl (fun s w => set_lights w s) s

/-- `all_red_except(active_lane)` (tapi.py 93-97) as the list of GPIO writes
it issues: `set_lights(lane_id, 1, 0, 0)` for every lane other than
`active_lane`, in `LANE_GPIO` order.  The cycle programs always call it with
no argument (`active_lane = None`), which writes red to all four lanes. -/
def all_red_except (active : Option Lane) : List Write :=
  (lanesOrder.filter (fun l => some l != active)).map (fun l => ⟨l, true, false, false⟩)

/-- All outputs of all lanes off: the state after `initialize_gpio`
(tapi.py 63) and after the controller's forced all-off (line 251). -/
def all_off_state : LightsState :=
  ⟨⟨false, false, false⟩, ⟨false, false, false⟩,
   ⟨false, false, false⟩, ⟨false, false, false⟩⟩

/-- All four lanes red: the state `all_red_except()` establishes. -/
def all_red_state : LightsState :=
  ⟨⟨true, false, false⟩, ⟨true, false, false⟩,
   ⟨true, false, false⟩, ⟨true, false, false⟩⟩

/-! ### Cycle programs as write sequences -/

/-- The GPIO writes issued while one lane is served in `automatic_mode_cycle`
(tapi.py 176-183) and `manual_traffic_cycle` (tapi.py 203-210):
`all_red_except()` (red on all four lanes), assert this lane's green, then
its yellow, then its red.  The cancellable waits sit between these writes, so
an observed cancellation ends the run after an initial segment of them. -/
def laneServe (l : Lane) : List Write :=
  all_red_except none ++
    [⟨l, false, false, true⟩, ⟨l, false, true, false⟩, ⟨l, true, false, false⟩]

/-- The writes of one full pass of the for-loop over `sorted_lanes`
(automatic, tapi.py 171-183) or over the fixed order (manual, 199-210). -/
def cycleIter (order : List Lane) : List Write :=
  (order.map laneServe).flatten

/-- One iteration of `yellow_light_cycle` (tapi.py 220-228):
`all_red_except()`, then yellow on for every lane, then all outputs off for
every lane. -/
def blinkIter : List Write :=
  all_red_except none ++ lanesOrder.map (fun l => ⟨l, false, true, false⟩) ++
    lanesOrder.map (fun l => ⟨l, false, false, false⟩)

/-- The write sequence of one full iteration of one of the three cycle
programs.  For `automatic_mode_cycle` the visitation order is the lane order
returned by `calculate_timings`; the constructor quantifies over every lane
list, which includes that order.  `manual_traffic_cycle` uses the fixed
order 81, 82, 83, 84. -/
inductive IterWrites : List Write → Prop
  | auto (order : List Lane) : IterWrites (cycleIter order)
  | manual : IterWrites (cycleIter lanesOrder)
  | blink : IterWrites blinkIter

/-- `Leads p xs`: `p` is an initial segment of `xs`. -/
def Leads {α : Type} (p xs : List α) : Prop := ∃ t, xs = p ++ t

/-- All initial segments of a list, shortest first. -/
def headsOf {α : Type} : List α → List (List α)
  | [] => [[]]
  | a :: t => [] :: (headsOf t).map (fun p => a :: p)

/-- The write sequence of a finite succession of complete iterations. -/
inductive RunWrites : List Write → Prop
  | nil : RunWrites []
  | cons {it rest : List Write} : IterWrites it → RunWrites rest →
      RunWrites (it ++ rest)

/-- A write sequence observable at some instant of a cycle-program run: an
initial segment of finitely many iterations (cooperative cancellation cuts
the final iteration after any initial segment of its writes, and the thread
then issues no further writes). -/
def ReachableWrites (ws : List Write) : Prop :=
  ∃ run, RunWrites run ∧ Leads ws run

/-- No two lanes have their green output asserted simultaneously. -/
def atMostOneGreen (s : LightsState) : Prop :=
  ∀ l₁ l₂ : Lane, (getSig s l₁).g = true → (getSig s l₂).g = true → l₁ = l₂

instance (s : LightsState) : Decidable (atMostOneGreen s) := by
  unfold atMostOneGreen; infer_instance

/-- A lane's outputs are in one of the four defined combinations: all off,
red only, yellow only, or green only — never an undefined combination such
as red together with green. -/
def validSig (c : Sig) : Bool :=
  (c.r && !c.y && !c.g) || (!c.r && c.y && !c.g) || (!c.r && !c.y && c.g) ||
    (!c.r && !c.y && !c.g)

/-- The safety invariant of claim C2: at most one green, and every lane in a
defined output combination. -/
def SafeState (s : LightsState) : Prop :=
  atMostOneGreen s ∧ ∀ l : Lane, validSig (getSig s l) = true

instance (s : LightsState) : Decidable (SafeState s) := by
  unfold SafeState; infer_instance

/-! ### Mode controller (`stop_current_task` / `set_mode`) -/

/-- The values `target_map` has keys for (tapi.py 270-274); every other
requested mode string is rejected as invalid. -/
def valid_modes : List String := ["Automatic", "Manual", "Yellow"]

/-- Observable actions of `stop_current_task`, in program order:
`stop_event.set()`, `thread.join()`, and the GPIO writes. -/
inductive Event where
  | signalStop
  | join
  | gpio (w : Write)
  deriving DecidableEq

/-- The controller-owned state: `active_task["thread"]` (is a thread object
present), `active_task["stop_event"]` (is the current task's cancellation
event set), `active_task["mode"]`, and the GPIO outputs. -/
structure SysState where
  thread : Bool
  stop_event_set : Bool
  mode : String
  lights : LightsState
  deriving DecidableEq

/-- The writes of `for lane_id in LANE_GPIO: set_lights(lane_id, 0, 0, 0)`
(tapi.py 251). -/
def off_writes : List Write := lanesOrder.map (fun l => ⟨l, false, false, false⟩)

/-- `stop_current_task` (tapi.py 240-251): if a thread is present, set its
stop event, join it, and clear the handle; then, if the mode is not "None",
set the mode to "None" and drive every lane's outputs off.  Returns the post
state together with the ordered list of observable actions.  The two
sequential `if` statements of the source are written here as nested `if`s
over the four combinations; the first `if` never changes the mode, so the
conditions coincide with the source's. -/
def stop_current_task (s : SysState) : SysState × List Event :=
  if s.thread then
    if s.mode ≠ "None" then
      ({ s with
          stop_event_set := true,
          thread := false,
          mode := "None",
          lights := applyWrites off_writes s.lights },
       [Event.signalStop, Event.join] ++ off_writes.map Event.gpio)
    else
      ({ s with stop_event_set := true, thread := false },
       [Event.signalStop, Event.join])
  else
    if s.mode ≠ "None" then
      ({ s with mode := "None", lights := applyWrites off_writes s.lights },
       off_writes.map Event.gpio)
    else (s, [])

/-- The synchronous outcomes of `set_mode` (tapi.py 261-287): HTTP 400 with
"already running", HTTP 400 with "Invalid mode specified.", or HTTP 200 with
"mode started". -/
inductive ReqResult where
  | alreadyRunning
  | invalidMode
  | started
  deriving DecidableEq

/-- `set_mode` (tapi.py 261-287): reject a duplicate of the current mode;
otherwise FIRST call `stop_current_task`, THEN look the requested mode up in
`target_map`; on a miss report "Invalid mode"; on a hit create a fresh stop
event and start the new thread, updating `active_task`.  Returns the
synchronous result together with the post state. -/
def set_mode (s : SysState) (mode : String) : ReqResult × SysState :=
  if s.mode = mode then (.alreadyRunning, s)
  else if mode ∈ valid_modes then
    (.started,
      { (stop_current_task s).1 with
          thread := true,
          stop_event_set := false,
          mode := mode })
  else (.invalidMode, (stop_current_task s).1)

/-! ### Density sampler (`run_car_script` / the automatic evaluation phase) -/

/-- A stdout line of `car.py` that matches the regex in `parse_vehicle_line`
(tapi.py 103) carries these five detection counts. -/
structure VehicleLine where
  car : Nat
  bicycle : Nat
  motorcycle : Nat
  bus : Nat
  truck : Nat
  deriving DecidableEq

/-- `parse_vehicle_line` (tapi.py 101-105): `none` for a line that does not
match the regex, otherwise the sum of the five matched counts. -/
def parse_vehicle_line (line : Option VehicleLine) : Option Nat :=
  line.map (fun v => v.car + v.bicycle + v.motorcycle + v.bus + v.truck)

/-- The environment's behaviour during one `run_car_script` call: either the
subprocess's stdout yields a (possibly empty, possibly unparsable) sequence
of lines within the 5-second window, or a Python-level error is raised
inside the read loop (e.g. `Popen` or `readline` failing); the
`try/finally` at tapi.py 112-127 re-raises such an error after the
subprocess teardown. -/
inductive SampleOutcome where
  | lines (ls : List (Option VehicleLine))
  | raises

/-- The count accumulation of the read loop (tapi.py 111-119): `count`
starts at 0 and each parsable line overwrites it. -/
def script_count (ls : List (Option VehicleLine)) : Nat :=
  ls.foldl (fun c line =>
    match parse_vehicle_line line with
    | some n => n
    | none => c) 0

/-- `run_car_script` (tapi.py 107-129) acting on the `vehicle_counts` dict:
on normal completion it stores the last parsed count (0 when nothing
parsable was read) under the lane's key; a raised error propagates to the
caller and the dict is not updated. -/
def run_car_script (lane : Nat) (out : SampleOutcome)
    (counts : List (Nat × Nat)) : Except Unit (List (Nat × Nat)) :=
  match out with
  | .raises => .error ()
  | .lines ls => .ok (dictInsert lane (script_count ls) counts)

/-- The `RTSP_URLS` iteration order (tapi.py 25-30): lanes 81, 82, 83, 84. -/
def rtsp_lanes : List Nat := [81, 82, 83, 84]

/-- The evaluation phase of `automatic_mode_cycle` (tapi.py 156-158): run
the sampler for each lane in turn; an error raised by one invocation
propagates immediately, skipping the remaining lanes. -/
def evaluation_phase (o : Nat → SampleOutcome) (counts : List (Nat × Nat)) :
    Except Unit (List (Nat × Nat)) :=
  rtsp_lanes.foldlM (fun cs lane => run_car_script lane (o lane) cs) counts

/-- Whether the automatic loop is still alive after an evaluation phase. -/
inductive LoopOutcome where
  | continues (counts : List (Nat × Nat))
  | terminated
  deriving DecidableEq

/-- The fate of `automatic_mode_cycle`'s while-loop across one evaluation
phase: on success the loop continues with the updated `vehicle_counts`; an
error raised during sampling propagates out of the while-loop to the
`except` handler at tapi.py 188, which logs it, and the thread finishes —
the loop is over. -/
def automatic_eval_step (o : Nat → SampleOutcome) (counts : List (Nat × Nat)) :
    LoopOutcome :=
  match evaluation_phase o counts with
  | .ok cs => .continues cs
  | .error _ => .terminated

/-- The `except`/`finally` epilogue shared by `automatic_mode_cycle`
(tapi.py 188-191), `manual_traffic_cycle` (211-214) and
`yellow_light_cycle` (229-232): when an uncaught error escapes the loop, the
handler prints the error, the `finally` clause prints a message, and the
thread returns.  Neither `active_task` nor any GPIO output is written, so
the system state at thread exit is exactly the state at the instant the
error escaped. -/
def cycle_thread_abnormal_exit (s : SysState) : SysState := s

/-! ## Theorems -/

/-! ### Timing allocator helper lemmas -/

theorem calculate_timings_fst (vc : List (Nat × Nat)) :
    (calculate_timings vc).1 = sortedDesc vc := rfl

theorem calculate_timings_snd (vc : List (Nat × Nat)) :
    (calculate_timings vc).2 =
      (sortedDesc vc).foldl (timing_step (total_vehicles (sortedDesc vc))) [] := rfl

theorem mem_insertDesc {x q : Nat × Nat} :
    ∀ {l : List (Nat × Nat)}, q ∈ insertDesc x l → q = x ∨ q ∈ l := by
  intro l
  induction l with
  | nil =>
      intro h
      simp [insertDesc] at h
      exact Or.inl h
  | cons y ys ih =>
      intro h
      by_cases hc : x.2 ≤ y.2
      · simp only [insertDesc, if_pos hc] at h
        rcases List.mem_cons.mp h with h | h
        · exact Or.inr (by simp [h])
        · rcases ih h with h | h
          · exact Or.inl h
          · exact Or.inr (List.mem_cons_of_mem _ h)
      · simp only [insertDesc, if_neg hc] at h
        rcases List.mem_cons.mp h with h | h
        · exact Or.inl h
        · exact Or.inr h

theorem mem_dictInsert {k v : Nat} {q : Nat × Nat} :
    ∀ {l : List (Nat × Nat)}, q ∈ dictInsert k v l → q ∈ l ∨ q = (k, v) := by
  intro l
  induction l with
  | nil =>
      intro h
      simp [dictInsert] at h
      exact Or.inr h
  | cons y ys ih =>
      intro h
      obtain ⟨k₁, v₁⟩ := y
      by_cases hk : k₁ = k
      · simp only [dictInsert, if_pos hk] at h
        rcases List.mem_cons.mp h with h | h
        · exact Or.inr h
        · exact Or.inl (List.mem_cons_of_mem _ h)
      · simp only [dictInsert, if_neg hk] at h
        rcases List.mem_cons.mp h with h | h
        · exact Or.inl (by simp [h])
        · rcases ih h with h | h
          · exact Or.inl (List.mem_cons_of_mem _ h)
          · exact Or.inr h

theorem insertDesc_perm (x : Nat × Nat) :
    ∀ l : List (Nat × Nat), (insertDesc x l).Perm (x :: l) := by
  intro l
  induction l with
  | nil => simp [insertDesc]
  | cons y ys ih =>
      by_cases hc : x.2 ≤ y.2
      · simp only [insertDesc, if_pos hc]
        exact (ih.cons y).trans (List.Perm.swap x y ys)
      · simp only [insertDesc, if_neg hc]
        exact List.Perm.refl _

theorem sortedDesc_perm_aux :
    ∀ (l acc : List (Nat × Nat)),
      (l.foldl (fun acc x => insertDesc x acc) acc).Perm (acc ++ l) := by
  intro l
  induction l with
  | nil => intro acc; simp
  | cons x t ih =>
      intro acc
      have h1 := ih (insertDesc x acc)
      have h2 : (insertDesc x acc ++ t).Perm (acc ++ x :: t) := by
        have hx := (insertDesc_perm x acc).append_right t
        exact hx.trans List.perm_middle.symm
      simpa using h1.trans h2

theorem sortedDesc_perm (l : List (Nat × Nat)) : (sortedDesc l).Perm l := by
  simpa [sortedDesc] using sortedDesc_perm_aux l []

theorem insertDesc_pairwise {x : Nat × Nat} :
    ∀ {l : List (Nat × Nat)}, l.Pairwise rankedBefore →
      (∀ p ∈ l, p.1 < x.1) → (insertDesc x l).Pairwise rankedBefore := by
  intro l
  induction l with
  | nil => intro _ _; simp [insertDesc]
  | cons y ys ih =>
      intro hp hk
      rcases List.pairwise_cons.mp hp with ⟨hy, hys⟩
      by_cases hc : x.2 ≤ y.2
      · simp only [insertDesc, if_pos hc]
        refine List.pairwise_cons.mpr ⟨?_, ih hys ?_⟩
        · intro q hq
          rcases mem_insertDesc hq with rfl | hq
          · rcases Nat.lt_or_ge q.2 y.2 with h | h
            · exact Or.inl h
            · exact Or.inr ⟨Nat.le_antisymm h hc, hk y (by simp)⟩
          · exact hy q hq
        · intro p hp2
          exact hk p (List.mem_cons_of_mem _ hp2)
      · simp only [insertDesc, if_neg hc]
        have hxy : y.2 < x.2 := Nat.lt_of_not_le hc
        refine List.pairwise_cons.mpr ⟨?_, hp⟩
        intro q hq
        rcases List.mem_cons.mp hq with rfl | hq
        · exact Or.inl hxy
        · rcases hy q hq with h | h
          · exact Or.inl (h.trans hxy)
          · exact Or.inl (h.1 ▸ hxy)

theorem sortedDesc_pairwise_aux :
    ∀ (l acc : List (Nat × Nat)),
      acc.Pairwise rankedBefore →
      l.Pairwise (fun p q => p.1 < q.1) →
      (∀ p ∈ acc, ∀ x ∈ l, p.1 < x.1) →
      (l.foldl (fun acc x => insertDesc x acc) acc).Pairwise rankedBefore := by
  intro l
  induction l with
  | nil => intro acc ha _ _; simpa using ha
  | cons x t ih =>
      intro acc ha hl hcross
      rcases List.pairwise_cons.mp hl with ⟨hx, ht⟩
      simp only [List.foldl_cons]
      refine ih (insertDesc x acc) ?_ ht ?_
      · exact insertDesc_pairwise ha (fun p hp => hcross p hp x (by simp))
      · intro p hp y hy
        rcases mem_insertDesc hp with rfl | hp
        · exact hx y hy
        · exact hcross p hp y (List.mem_cons_of_mem _ hy)

/-- Values stored by the `lane_timings` fold are always the clamped
`max 10 (min green 80)`, hence lie in `[10, 80]`. -/
theorem timings_fold_clamped (total : Nat) :
    ∀ (sl acc : List (Nat × Nat)),
      (∀ p ∈ acc, 10 ≤ p.2 ∧ p.2 ≤ 80) →
      ∀ p ∈ sl.foldl (timing_step total) acc, 10 ≤ p.2 ∧ p.2 ≤ 80 := by
  intro sl
  induction sl with
  | nil => intro acc hacc p hp; exact hacc p (by simpa using hp)
  | cons q t ih =>
      intro acc hacc p hp
      simp only [List.foldl_cons] at hp
      refine ih _ ?_ p hp
      intro r hr
      rcases mem_dictInsert (by simpa [timing_step] using hr) with h | h
      · exact hacc r h
      · subst h
        refine ⟨Nat.le_max_left _ _, Nat.max_le.mpr ⟨by omega, Nat.min_le_right _ _⟩⟩

/-! ### Claims C7-C10 -/

/-- C7: every `greenSeconds` value returned by `calculate_timings` lies in
the interval `[10, 80]`, for every input set of per-lane vehicle counts. -/
theorem calculate_timings_green_bounds (vc : List (Nat × Nat)) (p : Nat × Nat)
    (hp : p ∈ (calculate_timings vc).2) : 10 ≤ p.2 ∧ p.2 ≤ 80 := by
  rw [calculate_timings_snd] at hp
  exact timings_fold_clamped _ _ [] (by simp) p hp

/-- Witness for C7 at the concrete input `{81: 0}`: the single returned
timing is `(81, 80)` and it lies in `[10, 80]`. -/
theorem calculate_timings_green_bounds_wit :
    10 ≤ ((81, 80) : Nat × Nat).2 ∧ ((81, 80) : Nat × Nat).2 ≤ 80 :=
  calculate_timings_green_bounds [(81, 0)] (81, 80) (by decide)

/-- C8: `calculate_timings` is deterministic (it is a pure function of the
vehicle-count dict) and, whenever the input dict lists the lanes in ascending
identifier order (as the automatic evaluation phase always produces), the
returned lane order is a permutation of the input sorted by descending
vehicle count with ties broken by ascending lane identifier. -/
theorem calculate_timings_order (vc : List (Nat × Nat))
    (hasc : vc.Pairwise (fun p q => p.1 < q.1)) :
    ((calculate_timings vc).1).Perm vc ∧
    ((calculate_timings vc).1).Pairwise rankedBefore := by
  rw [calculate_timings_fst]
  exact ⟨sortedDesc_perm vc, sortedDesc_pairwise_aux vc [] (by simp) hasc (by simp)⟩

/-- Witness for C8 at a concrete input with a tie between lanes 81 and 82. -/
theorem calculate_timings_order_wit :
    ((calculate_timings [(81, 5), (82, 5), (83, 1), (84, 7)]).1).Perm
      [(81, 5), (82, 5), (83, 1), (84, 7)] ∧
    ((calculate_timings [(81, 5), (82, 5), (83, 1), (84, 7)]).1).Pairwise
      rankedBefore :=
  calculate_timings_order [(81, 5), (82, 5), (83, 1), (84, 7)] (by decide)

/-- C9 counterexample: on the spec's example input the allocator returns a
green time of 76 seconds for lane 81 (`int(50/91*140) = 76`), so the claimed
timing list `[77, 46, 15, 10]` is not what the code produces. -/
theorem calculate_timings_example_cex :
    dictLookup 81 (calculate_timings [(81, 50), (82, 30), (83, 10), (84, 0)]).2
      = some 76 ∧
    ¬ ((calculate_timings [(81, 50), (82, 30), (83, 10), (84, 0)]).2 =
        [(81, 77), (82, 46), (83, 15), (84, 10)]) := by decide

/-- C9 amended: on counts `{81:50, 82:30, 83:10, 84:0}` the allocator
returns the lane order `[81, 82, 83, 84]`, with effective weights summing
to 91, and the clamped green times `[76, 46, 15, 10]`. -/
theorem calculate_timings_example :
    calculate_timings [(81, 50), (82, 30), (83, 10), (84, 0)] =
      ([(81, 50), (82, 30), (83, 10), (84, 0)],
       [(81, 76), (82, 46), (83, 15), (84, 10)]) ∧
    total_vehicles (sortedDesc [(81, 50), (82, 30), (83, 10), (84, 0)]) = 91 := by
  decide

/-- C10: the total-weight divisor is at least 1 on every input (the `or 1`
fallback covers the empty dict, every other dict has each effective weight
`≥ 1`), so the division in `calculate_timings` is never by zero, and on the
empty vehicle-count dict it returns an empty order and an empty timing dict. -/
theorem calculate_timings_total_safe :
    calculate_timings [] = ([], []) ∧
    ∀ sl : List (Nat × Nat), 1 ≤ total_vehicles sl := by
  refine ⟨by decide, ?_⟩
  intro sl
  unfold total_vehicles
  by_cases h : ((sl.map fun p => max p.2 1).sum) = 0
  · simp [h]
  · simp [h]
    omega

/-! ### Lights-safety helper lemmas -/

theorem applyWrites_append (xs ys : List Write) (s : LightsState) :
    applyWrites (xs ++ ys) s = applyWrites ys (applyWrites xs s) := by
  simp [applyWrites]

theorem getSig_set_lights (w : Write) (s : LightsState) (l : Lane) :
    getSig (set_lights w s) l =
      if l = w.lane then ⟨w.r, w.y, w.g⟩ else getSig s l := by
  obtain ⟨lw, r, y, g⟩ := w
  cases lw <;> cases l <;> rfl

theorem leads_subset {α : Type} {p xs : List α} (h : Leads p xs) :
    ∀ a ∈ p, a ∈ xs := by
  obtain ⟨t, rfl⟩ := h
  intro a ha
  exact List.mem_append_left _ ha

theorem leads_append {α : Type} {p xs ys : List α} (h : Leads p (xs ++ ys)) :
    Leads p xs ∨ ∃ q, Leads q ys ∧ p = xs ++ q := by
  induction xs generalizing p with
  | nil =>
      right
      exact ⟨p, h, rfl⟩
  | cons a t ih =>
      obtain ⟨r, hr⟩ := h
      cases p with
      | nil => exact Or.inl ⟨a :: t, rfl⟩
      | cons b p₂ =>
          simp only [List.cons_append, List.cons.injEq] at hr
          obtain ⟨rfl, hr2⟩ := hr
          rcases ih ⟨r, hr2⟩ with h | ⟨q, hq, rfl⟩
          · obtain ⟨u, hu⟩ := h
            exact Or.inl ⟨u, by simp [hu]⟩
          · exact Or.inr ⟨q, hq, rfl⟩

theorem leads_iff_mem_headsOf {α : Type} {p xs : List α} :
    Leads p xs ↔ p ∈ headsOf xs := by
  induction xs generalizing p with
  | nil =>
      constructor
      · rintro ⟨t, ht⟩
        rcases List.append_eq_nil.mp ht.symm with ⟨rfl, -⟩
        simp [headsOf]
      · intro hp
        simp [headsOf] at hp
        exact ⟨[], by simp [hp]⟩
  | cons a t ih =>
      constructor
      · rintro ⟨r, hr⟩
        cases p with
        | nil => simp [headsOf]
        | cons b p₂ =>
            simp only [List.cons_append, List.cons.injEq] at hr
            obtain ⟨rfl, hr2⟩ := hr
            simp only [headsOf, List.mem_cons, List.mem_map]
            exact Or.inr ⟨p₂, ih.mp ⟨r, hr2⟩, rfl⟩
      · intro hp
        simp only [headsOf, List.mem_cons, List.mem_map] at hp
        rcases hp with rfl | ⟨q, hq, rfl⟩
        · exact ⟨a :: t, rfl⟩
        · obtain ⟨r, hr⟩ := ih.mpr hq
          exact ⟨r, by simp [hr]⟩

/-- A write that does not assert green and drives a defined combination
preserves the safety invariant. -/
theorem safe_set_nonGreen {w : Write} (hg : w.g = false)
    (hv : validSig ⟨w.r, w.y, w.g⟩ = true) {s : LightsState}
    (hs : SafeState s) : SafeState (set_lights w s) := by
  obtain ⟨h1, h2⟩ := hs
  constructor
  · intro l₁ l₂ hl₁ hl₂
    rw [getSig_set_lights] at hl₁ hl₂
    by_cases e₁ : l₁ = w.lane
    · rw [if_pos e₁] at hl₁
      simp [hg] at hl₁
    · rw [if_neg e₁] at hl₁
      by_cases e₂ : l₂ = w.lane
      · rw [if_pos e₂] at hl₂
        simp [hg] at hl₂
      · rw [if_neg e₂] at hl₂
        exact h1 l₁ l₂ hl₁ hl₂
  · intro l
    rw [getSig_set_lights]
    by_cases e : l = w.lane
    · rw [if_pos e]
      exact hv
    · rw [if_neg e]
      exact h2 l

theorem safe_applyWrites_nonGreen :
    ∀ (ws : List Write),
      (∀ w ∈ ws, w.g = false ∧ validSig ⟨w.r, w.y, w.g⟩ = true) →
      ∀ {s : LightsState}, SafeState s → SafeState (applyWrites ws s) := by
  intro ws
  induction ws with
  | nil =>
      intro _ s hs
      simpa [applyWrites] using hs
  | cons w t ih =>
      intro hall s hs
      have hw := hall w (by simp)
      have hrw : applyWrites (w :: t) s = applyWrites t (set_lights w s) := rfl
      rw [hrw]
      exact ih (fun x hx => hall x (List.mem_cons_of_mem _ hx))
        (safe_set_nonGreen hw.1 hw.2 hs)

theorem all_red_nonGreen :
    ∀ w ∈ all_red_except none, w.g = false ∧ validSig ⟨w.r, w.y, w.g⟩ = true := by
  decide

theorem blink_nonGreen :
    ∀ w ∈ blinkIter, w.g = false ∧ validSig ⟨w.r, w.y, w.g⟩ = true := by
  decide

theorem applyWrites_all_red (s : LightsState) :
    applyWrites (all_red_except none) s = all_red_state := rfl

theorem applyWrites_laneServe (l : Lane) (s : LightsState) :
    applyWrites (laneServe l) s = all_red_state := by
  cases l <;> rfl

theorem applyWrites_blink (s : LightsState) :
    applyWrites blinkIter s = all_off_state := rfl

/-- Every initial segment of the writes serving one lane preserves the
safety invariant: the green assertion happens only from the all-red state
that `all_red_except()` just established. -/
theorem laneServe_leads_safe (l : Lane) {p : List Write}
    (hp : Leads p (laneServe l)) {s : LightsState} (hs : SafeState s) :
    SafeState (applyWrites p s) := by
  unfold laneServe at hp
  rcases leads_append hp with h | ⟨q, hq, rfl⟩
  · exact safe_applyWrites_nonGreen p
      (fun w hw => all_red_nonGreen w (leads_subset h w hw)) hs
  · rw [applyWrites_append, applyWrites_all_red]
    have hq' := leads_iff_mem_headsOf.mp hq
    simp only [headsOf, List.map_cons, List.map_nil, List.mem_cons,
      List.not_mem_nil, or_false] at hq'
    rcases hq' with rfl | rfl | rfl | rfl
    · decide
    · cases l <;> decide
    · cases l <;> decide
    · cases l <;> decide

theorem cycleIter_end (order : List Lane) :
    ∀ {s : LightsState}, SafeState s → SafeState (applyWrites (cycleIter order) s) := by
  induction order with
  | nil =>
      intro s hs
      simpa [cycleIter, applyWrites] using hs
  | cons l rest ih =>
      intro s hs
      have hsplit : cycleIter (l :: rest) = laneServe l ++ cycleIter rest := by
        simp [cycleIter]
      rw [hsplit, applyWrites_append, applyWrites_laneServe]
      exact ih (by decide)

theorem cycleIter_leads_safe (order : List Lane) :
    ∀ {p : List Write}, Leads p (cycleIter order) →
      ∀ {s : LightsState}, SafeState s → SafeState (applyWrites p s) := by
  induction order with
  | nil =>
      intro p hp s hs
      obtain ⟨t, ht⟩ := hp
      rcases List.append_eq_nil.mp ht.symm with ⟨rfl, -⟩
      simpa [applyWrites] using hs
  | cons l rest ih =>
      intro p hp s hs
      have hsplit : cycleIter (l :: rest) = laneServe l ++ cycleIter rest := by
        simp [cycleIter]
      rw [hsplit] at hp
      rcases leads_append hp with h | ⟨q, hq, rfl⟩
      · exact laneServe_leads_safe l h hs
      · rw [applyWrites_append, applyWrites_laneServe]
        exact ih hq (by decide)

theorem blink_leads_safe {p : List Write} (hp : Leads p blinkIter)
    {s : LightsState} (hs : SafeState s) : SafeState (applyWrites p s) :=
  safe_applyWrites_nonGreen p
    (fun w hw => blink_nonGreen w (leads_subset hp w hw)) hs

theorem iter_leads_safe {it : List Write} (hit : IterWrites it)
    {p : List Write} (hp : Leads p it) {s : LightsState} (hs : SafeState s) :
    SafeState (applyWrites p s) := by
  cases hit with
  | auto order => exact cycleIter_leads_safe order hp hs
  | manual => exact cycleIter_leads_safe lanesOrder hp hs
  | blink => exact blink_leads_safe hp hs

theorem iter_end_safe {it : List Write} (hit : IterWrites it)
    {s : LightsState} (hs : SafeState s) : SafeState (applyWrites it s) := by
  cases hit with
  | auto order => exact cycleIter_end order hs
  | manual => exact cycleIter_end lanesOrder hs
  | blink =>
      rw [applyWrites_blink]
      decide

theorem run_leads_safe {run : List Write} (hrun : RunWrites run) :
    ∀ {p : List Write}, Leads p run → ∀ {s : LightsState}, SafeState s →
      SafeState (applyWrites p s) := by
  induction hrun with
  | nil =>
      intro p hp s hs
      obtain ⟨t, ht⟩ := hp
      rcases List.append_eq_nil.mp ht.symm with ⟨rfl, -⟩
      simpa [applyWrites] using hs
  | cons hit hrest ih =>
      intro p hp s hs
      rcases leads_append hp with h | ⟨q, hq, rfl⟩
      · exact iter_leads_safe hit h hs
      · rw [applyWrites_append]
        exact ih hq (iter_end_safe hit hs)

/-! ### Claims C2 and C4 -/

/-- C2: at every reachable instant during the execution of any single cycle
program (automatic with any visitation order, manual, or blink), started
from the all-off state the controller guarantees, no two lanes have their
green output asserted simultaneously — every transition passes through
`all_red_except()` before a new lane's green — and no lane is ever in an
undefined combination of outputs. -/
theorem cycle_programs_at_most_one_green (ws : List Write)
    (hws : ReachableWrites ws) :
    atMostOneGreen (applyWrites ws all_off_state) ∧
    ∀ l : Lane, validSig (getSig (applyWrites ws all_off_state) l) = true := by
  obtain ⟨run, hrun, hp⟩ := hws
  exact run_leads_safe hrun hp (by decide)

/-- Witness for C2: the instant right after the first write of a blink
iteration is reachable, and the state there is safe. -/
theorem cycle_programs_at_most_one_green_wit :
    atMostOneGreen (applyWrites [⟨Lane.l81, true, false, false⟩] all_off_state) ∧
    ∀ l : Lane, validSig
      (getSig (applyWrites [⟨Lane.l81, true, false, false⟩] all_off_state) l)
        = true :=
  cycle_programs_at_most_one_green [⟨Lane.l81, true, false, false⟩]
    ⟨blinkIter ++ [], RunWrites.cons IterWrites.blink RunWrites.nil,
      ⟨blinkIter.drop 1 ++ [], by decide⟩⟩

/-- C4 (code bug): contrary to the claim — and to the source's own comment
`# Turn all R and G off` at tapi.py line 221 — each `yellow_light_cycle`
iteration begins with `all_red_except()`, whose four writes assert red
`(1, 0, 0)` on every lane; the reachable instant just after them has every
lane's red output on, so the blink program does not only alternate between
all-yellow and all-off. -/
theorem blink_asserts_red :
    ReachableWrites (blinkIter.take 4) ∧
    applyWrites (blinkIter.take 4) all_off_state = all_red_state ∧
    (getSig all_red_state Lane.l81).r = true ∧
    (blinkIter.take 4).all (fun w => w.r) = true := by
  refine ⟨⟨blinkIter ++ [], RunWrites.cons IterWrites.blink RunWrites.nil,
    ⟨blinkIter.drop 4 ++ [], by decide⟩⟩, by decide, by decide, by decide⟩

/-! ### Mode-controller helper lemmas -/

theorem applyWrites_off (s : LightsState) :
    applyWrites off_writes s = all_off_state := rfl

/-- Post-state of `stop_current_task` from any state whose mode is not
"None": mode "None", no thread handle, all outputs driven off. -/
theorem stop_current_task_post {s : SysState} (hm : s.mode ≠ "None") :
    (stop_current_task s).1.mode = "None" ∧
    (stop_current_task s).1.thread = false ∧
    (stop_current_task s).1.lights = all_off_state := by
  unfold stop_current_task
  by_cases ht : s.thread = true
  · simp [ht, hm, applyWrites_off]
  · simp [ht, hm, applyWrites_off]

/-! ### Claims C1, C3 and C6 -/

/-- C1: whenever a task is active (a thread handle is present and the mode
is not "None"), `stop_current_task` signals the task's stop event, joins
the thread, and only after the join issues the all-off writes and the mode
reset: the action trace is exactly `[signalStop, join]` followed by the four
all-off GPIO writes, and after it returns the mode is "None" and every
lane's red, yellow and green outputs are off. -/
theorem stop_current_task_stops (s : SysState) (hth : s.thread = true)
    (hm : s.mode ≠ "None") :
    (stop_current_task s).2 =
      [Event.signalStop, Event.join] ++ off_writes.map Event.gpio ∧
    (stop_current_task s).1.mode = "None" ∧
    (stop_current_task s).1.stop_event_set = true ∧
    (stop_current_task s).1.thread = false ∧
    ∀ l : Lane,
      getSig (stop_current_task s).1.lights l = ⟨false, false, false⟩ := by
  unfold stop_current_task
  split_ifs
  exact ⟨rfl, rfl, rfl, rfl, fun l => by cases l <;> rfl⟩

/-- Witness for C1 at a concrete active-task state. -/
theorem stop_current_task_stops_wit :
    (stop_current_task ⟨true, false, "Automatic", all_red_state⟩).2 =
      [Event.signalStop, Event.join] ++ off_writes.map Event.gpio ∧
    (stop_current_task ⟨true, false, "Automatic", all_red_state⟩).1.mode
      = "None" ∧
    (stop_current_task ⟨true, false, "Automatic", all_red_state⟩).1.stop_event_set
      = true ∧
    (stop_current_task ⟨true, false, "Automatic", all_red_state⟩).1.thread
      = false ∧
    ∀ l : Lane,
      getSig (stop_current_task ⟨true, false, "Automatic", all_red_state⟩).1.lights l
        = ⟨false, false, false⟩ :=
  stop_current_task_stops ⟨true, false, "Automatic", all_red_state⟩ rfl
    (by decide)

/-- C3 counterexample: requesting the invalid mode "Blink" (the spec's own
name for the third mode — `target_map` only knows "Automatic", "Manual",
"Yellow") while the Automatic task is active returns the InvalidMode error,
but the state HAS changed: `set_mode` calls `stop_current_task` before
validating the mode, so the task is stopped, the mode is "None" and the
outputs were forced off. -/
theorem set_mode_invalid_side_effect_cex :
    (set_mode ⟨true, false, "Automatic", all_red_state⟩ "Blink").1 =
      ReqResult.invalidMode ∧
    (set_mode ⟨true, false, "Automatic", all_red_state⟩ "Blink").2 ≠
      ⟨true, false, "Automatic", all_red_state⟩ ∧
    (set_mode ⟨true, false, "Automatic", all_red_state⟩ "Blink").2.mode
      = "None" ∧
    (set_mode ⟨true, false, "Automatic", all_red_state⟩ "Blink").2.lights
      = all_off_state := by
  decide

/-- C3 amended: for a requested mode that is not a key of `target_map` and
differs from the current mode, `set_mode` returns the InvalidMode error,
but only after calling `stop_current_task`: the post state is
`stop_current_task`'s post state (any active task stopped, mode "None",
outputs forced off).  The state is unchanged only when the system was
already at rest (mode "None", no thread). -/
theorem set_mode_invalid (s : SysState) (mode : String)
    (hinv : mode ∉ valid_modes) (hne : s.mode ≠ mode) :
    (set_mode s mode).1 = ReqResult.invalidMode ∧
    (set_mode s mode).2 = (stop_current_task s).1 ∧
    (s.mode = "None" → s.thread = false → (set_mode s mode).2 = s) := by
  unfold set_mode
  split_ifs with h1
  · exact absurd h1 hne
  · refine ⟨rfl, rfl, fun hm hth => ?_⟩
    show (stop_current_task s).1 = s
    unfold stop_current_task
    simp [hth, hm]

/-- Witness for C3's amended theorem at a concrete rest state. -/
theorem set_mode_invalid_wit :
    (set_mode ⟨false, false, "None", all_off_state⟩ "Blink").1 =
      ReqResult.invalidMode ∧
    (set_mode ⟨false, false, "None", all_off_state⟩ "Blink").2 =
      (stop_current_task ⟨false, false, "None", all_off_state⟩).1 ∧
    ((⟨false, false, "None", all_off_state⟩ : SysState).mode = "None" →
      (⟨false, false, "None", all_off_state⟩ : SysState).thread = false →
      (set_mode ⟨false, false, "None", all_off_state⟩ "Blink").2 =
        ⟨false, false, "None", all_off_state⟩) :=
  set_mode_invalid ⟨false, false, "None", all_off_state⟩ "Blink"
    (by decide) (by decide)

/-- C6 counterexample: when an uncaught error escapes `automatic_mode_cycle`
while lane 81's green is asserted, the thread exits through the print-only
`except`/`finally` epilogue: the mode is still "Automatic" (not "None") and
lane 81's green output is still on — the ActiveTask is NOT torn down before
the execution unit exits. -/
theorem abnormal_exit_no_teardown_cex :
    (cycle_thread_abnormal_exit
      ⟨true, true, "Automatic",
        ⟨⟨false, false, true⟩, ⟨true, false, false⟩,
         ⟨true, false, false⟩, ⟨true, false, false⟩⟩⟩).mode ≠ "None" ∧
    (getSig (cycle_thread_abnormal_exit
      ⟨true, true, "Automatic",
        ⟨⟨false, false, true⟩, ⟨true, false, false⟩,
         ⟨true, false, false⟩, ⟨true, false, false⟩⟩⟩).lights Lane.l81).g
      = true := by
  decide

/-- C6 amended: on abnormal termination of a cycle program the thread exits
with the system state unchanged — the mode and the lane outputs keep their
last values — and the safe state (mode "None", every output off) is only
established when `stop_current_task` next runs, i.e. on the next mode
request. -/
theorem abnormal_exit_teardown_deferred (s : SysState) (hm : s.mode ≠ "None") :
    cycle_thread_abnormal_exit s = s ∧
    (stop_current_task (cycle_thread_abnormal_exit s)).1.mode = "None" ∧
    (stop_current_task (cycle_thread_abnormal_exit s)).1.lights
      = all_off_state := by
  exact ⟨rfl, (stop_current_task_post hm).1, (stop_current_task_post hm).2.2⟩

/-- Witness for C6's amended theorem at a concrete mid-run state. -/
theorem abnormal_exit_teardown_deferred_wit :
    cycle_thread_abnormal_exit ⟨true, true, "Automatic", all_red_state⟩ =
      ⟨true, true, "Automatic", all_red_state⟩ ∧
    (stop_current_task (cycle_thread_abnormal_exit
      ⟨true, true, "Automatic", all_red_state⟩)).1.mode = "None" ∧
    (stop_current_task (cycle_thread_abnormal_exit
      ⟨true, true, "Automatic", all_red_state⟩)).1.lights = all_off_state :=
  abnormal_exit_teardown_deferred ⟨true, true, "Automatic", all_red_state⟩
    (by decide)

/-! ### Density-sampler helper lemmas -/

theorem dictLookup_insert_self (k v : Nat) :
    ∀ l : List (Nat × Nat), dictLookup k (dictInsert k v l) = some v := by
  intro l
  induction l with
  | nil => simp [dictInsert, dictLookup]
  | cons y t ih =>
      obtain ⟨k₁, v₁⟩ := y
      by_cases hk : k₁ = k
      · simp [dictInsert, hk, dictLookup]
      · simp [dictInsert, hk, dictLookup, ih]

theorem dictLookup_insert_other {k₁ k : Nat} (hk : k₁ ≠ k) (v : Nat) :
    ∀ l : List (Nat × Nat), dictLookup k (dictInsert k₁ v l) = dictLookup k l := by
  intro l
  induction l with
  | nil => simp [dictInsert, dictLookup, hk]
  | cons y t ih =>
      obtain ⟨k₂, v₂⟩ := y
      by_cases h1 : k₂ = k₁
      · subst h1
        simp [dictInsert, dictLookup, hk]
      · by_cases h2 : k₂ = k
        · subst h2
          simp [dictInsert, dictLookup, h1]
        · simp [dictInsert, h1, dictLookup, h2, ih]

/-- When every sampler invocation completes its read window, the evaluation
phase succeeds and stores each lane's final count, in lane order 81..84. -/
theorem evaluation_phase_ok (ls : Nat → List (Option VehicleLine))
    (counts : List (Nat × Nat)) :
    evaluation_phase (fun lane => SampleOutcome.lines (ls lane)) counts =
      Except.ok (dictInsert 84 (script_count (ls 84))
        (dictInsert 83 (script_count (ls 83))
          (dictInsert 82 (script_count (ls 82))
            (dictInsert 81 (script_count (ls 81)) counts)))) := rfl

/-- A read window that produces no parsable line leaves the count at its
initialisation value 0. -/
theorem script_count_unparsable {ls : List (Option VehicleLine)}
    (h : ∀ line ∈ ls, parse_vehicle_line line = none) : script_count ls = 0 := by
  induction ls with
  | nil => rfl
  | cons a t ih =>
      have ha := h a (by simp)
      unfold script_count
      simp only [List.foldl_cons, ha]
      exact ih (fun x hx => h x (List.mem_cons_of_mem _ hx))

/-! ### Claim C5 -/

/-- C5 counterexample: if the sampler invocation for lane 81 raises, the
whole evaluation aborts with the error (the remaining lanes are never
sampled) and the automatic loop terminates, instead of treating the failure
as a zero count and proceeding. -/
theorem sampler_exception_aborts_cex :
    evaluation_phase
      (fun lane => if lane = 81 then SampleOutcome.raises
        else SampleOutcome.lines []) [] = Except.error () ∧
    automatic_eval_step
      (fun lane => if lane = 81 then SampleOutcome.raises
        else SampleOutcome.lines []) [] = LoopOutcome.terminated := by
  exact ⟨rfl, rfl⟩

/-- C5 amended: a sampler invocation that completes its read window — even
one that produced no parsable output at all — is recovered as a stored
count (0 when nothing parsed) and the evaluation proceeds over all four
lanes; only an error RAISED during an invocation aborts the evaluation and
terminates the automatic loop. -/
theorem evaluation_degrades_to_zero (ls : Nat → List (Option VehicleLine))
    (counts : List (Nat × Nat)) (lane : Nat) (hlane : lane ∈ rtsp_lanes)
    (hun : ∀ line ∈ ls lane, parse_vehicle_line line = none) :
    ∃ cs, automatic_eval_step (fun l => SampleOutcome.lines (ls l)) counts =
        LoopOutcome.continues cs ∧ dictLookup lane cs = some 0 := by
  refine ⟨dictInsert 84 (script_count (ls 84))
    (dictInsert 83 (script_count (ls 83))
      (dictInsert 82 (script_count (ls 82))
        (dictInsert 81 (script_count (ls 81)) counts))), ?_, ?_⟩
  · simp [automatic_eval_step, evaluation_phase_ok]
  · have h0 : script_count (ls lane) = 0 := script_count_unparsable hun
    have hl : lane = 81 ∨ lane = 82 ∨ lane = 83 ∨ lane = 84 := by
      simpa [rtsp_lanes] using hlane
    rcases hl with rfl | rfl | rfl | rfl
    · rw [dictLookup_insert_other (by decide), dictLookup_insert_other (by decide),
        dictLookup_insert_other (by decide), dictLookup_insert_self, h0]
    · rw [dictLookup_insert_other (by decide), dictLookup_insert_other (by decide),
        dictLookup_insert_self, h0]
    · rw [dictLookup_insert_other (by decide), dictLookup_insert_self, h0]
    · rw [dictLookup_insert_self, h0]

/-- Witness for C5's amended theorem: every lane's window reads one
unparsable line; lane 81 ends stored as 0 and the loop continues. -/
theorem evaluation_degrades_to_zero_wit :
    ∃ cs, automatic_eval_step
        (fun _ => SampleOutcome.lines [(none : Option VehicleLine)]) [] =
        LoopOutcome.continues cs ∧ dictLookup 81 cs = some 0 :=
  evaluation_degrades_to_zero (fun _ => [none]) [] 81 (by decide) (by decide)

end Traffic
